import Mathlib

/-
Verification of the getopts-util option declaration and parsing layer
(src/lib.rs) against its specification.

The underlying token scanner (the external getopts crate) is modelled
abstractly, following the collaborator contract of the spec: a scan
function producing either a syntax error or a `Matches` record offering
`opt_present` / `opt_str` / `opt_strs`, and a usage renderer.  Everything
owned by this repository — the option registry (`OptionDef`,
`add_option`), the result container (`Options`), and the resolution
algorithm (`parse_with_args`) — is translated directly from the source.

Process effects are made explicit: `process::exit(code)` becomes the
`ParseResult.exited code` outcome, a Rust `panic!` (a raisable error)
becomes `ParseResult.panicked msg`, and text printed to stdout is
returned as a list of printed strings.
-/

set_option autoImplicit false

namespace GetoptsUtil

/-- Boolean flag semantics of an option (Rust `enum OptAction`). -/
inductive OptAction where
  | StoreTrue
  | StoreFalse
deriving DecidableEq

/-- One option declaration (Rust `struct OptionDef`). -/
structure OptionDef where
  name : String
  short_name : String
  required : Bool
  multiple : Bool
  default : Option String
  action : Option OptAction
  help : String
  uppercase_name : String
deriving DecidableEq

/-- Rust `OptionDef::new()`. -/
def OptionDef.new : OptionDef :=
  { name := ""
    short_name := ""
    required := false
    multiple := false
    default := none
    action := none
    help := ""
    uppercase_name := "" }

/-- Association-list model of `HashMap<String, Vec<String>>`: insertion
replaces the value stored under an existing key, otherwise appends. -/
def assocInsert (l : List (String × List String)) (k : String) (v : List String) :
    List (String × List String) :=
  match l with
  | [] => [(k, v)]
  | e :: rest => if e.1 = k then (k, v) :: rest else e :: assocInsert rest k v

/-- Association-list model of `HashMap::get`. -/
def mapLookup (l : List (String × List String)) (k : String) : Option (List String) :=
  match l with
  | [] => none
  | e :: rest => if e.1 = k then some e.2 else mapLookup rest k

/-- Association-list model of `HashMap::contains_key`. -/
def mapContains (l : List (String × List String)) (k : String) : Bool :=
  (mapLookup l k).isSome

/-- The parse result container (Rust `struct Options`). -/
structure Options where
  defined_names : List String
  parsed_options : List (String × List String)
deriving DecidableEq

/-- Rust `Options::new()`. -/
def Options.new : Options :=
  { defined_names := [], parsed_options := [] }

/-- Rust `Options::set_defined_names` (pushes each given name). -/
def Options.set_defined_names (o : Options) (names : List String) : Options :=
  { o with defined_names := o.defined_names ++ names }

/-- Rust `Options::insert` (HashMap insert; the returned previous value is
never used by the source, so it is dropped). -/
def Options.insert (o : Options) (key : String) (values : List String) : Options :=
  { o with parsed_options := assocInsert o.parsed_options key values }

/-- Rust `Options::get`: checks `contains_key` on the map and then reads it. -/
def Options.get (o : Options) (key : String) : Option (List String) :=
  if mapContains o.parsed_options key then mapLookup o.parsed_options key else none

/-- Rust `Options::contains_key`: true when the parsed map holds the key,
or else when the key occurs among the defined names. -/
def Options.contains_key (o : Options) (key : String) : Bool :=
  if mapContains o.parsed_options key then true
  else if o.defined_names.contains key then true
  else false

/-- Rust `Options::defined_len`. -/
def Options.defined_len (o : Options) : Nat :=
  o.defined_names.length

/-- Rust `Options::parsed_len`. -/
def Options.parsed_len (o : Options) : Nat :=
  o.parsed_options.length

/-- Arity of a scanner spec (getopts `HasArg`). -/
inductive HasArg where
  | Yes
  | No
  | Maybe
deriving DecidableEq

/-- Occurrence constraint of a scanner spec (getopts `Occur`). -/
inductive Occur where
  | Req
  | Optional
  | Multi
deriving DecidableEq

/-- One spec forwarded to the underlying scanner via `GetOptOptions::opt`. -/
structure ScannerSpec where
  short_name : String
  name : String
  help : String
  hint : String
  hasarg : HasArg
  occur : Occur
deriving DecidableEq

/-- The parser state (Rust `struct OptionParser`): the scanner spec set and
the ordered list of user declarations. -/
structure OptionParser where
  opts : List ScannerSpec
  given_options : List OptionDef

/-- Rust `OptionParser::new()`. -/
def OptionParser.new : OptionParser :=
  { opts := [], given_options := [] }

/-- Rust `OptionParser::add_option`: fills an `OptionDef` from the
arguments (absent optionals default to false / empty), derives the
uppercase placeholder, computes the forwarded scanner arity and
occurrence, registers the spec with the scanner and appends the
declaration. -/
def OptionParser.add_option (p : OptionParser) (name short_name : String)
    (required multiple : Option Bool) (default : Option String)
    (action : Option OptAction) (help : Option String) : OptionParser :=
  let option : OptionDef :=
    { name := name
      short_name := short_name
      required := required.getD false
      multiple := multiple.getD false
      default := default
      action := action
      help := help.getD ""
      uppercase_name := name.toUpper }
  let hasarg := if option.action.isSome then HasArg.No else HasArg.Yes
  let occur :=
    if option.required then Occur.Req
    else if option.multiple then Occur.Multi
    else Occur.Optional
  { opts := p.opts ++
      [{ short_name := option.short_name
         name := option.name
         help := option.help
         hint := option.uppercase_name
         hasarg := hasarg
         occur := occur }]
    given_options := p.given_options ++ [option] }

/-- The scanner's report for one parse (getopts `Matches`), abstract per
the collaborator contract: presence, single captured value, all captured
values. -/
structure Matches where
  opt_present : String → Bool
  opt_str : String → Option String
  opt_strs : String → List String

/-- The brief token built by `show_usage` for one declaration:
`--name`, plus the uppercase placeholder unless boolean, doubled with
`...` when multiple, bracketed when not required, space-prefixed. -/
def singleOptBrief (o : OptionDef) : String :=
  let s := "--" ++ o.name ++ (if o.action.isSome then "" else " " ++ o.uppercase_name)
  let s := if o.multiple then s ++ " " ++ s ++ "..." else s
  let s := if !o.required then "[" ++ s ++ "]" else s
  " " ++ s

/-- The full brief line built by `show_usage`. -/
def briefOf (given_options : List OptionDef) (program_name : String) : String :=
  "Usage: " ++ program_name ++
    given_options.foldl (fun acc o => acc ++ singleOptBrief o) ""

/-- The implicit help spec registered by `parse_with_args` when the caller
declared no option named "help". -/
def helpSpec : ScannerSpec :=
  { short_name := "h"
    name := "help"
    help := "show this help message and exit"
    hint := ""
    hasarg := HasArg.No
    occur := Occur.Optional }

/-- The scanner spec set used by one parse: the registered specs, plus the
implicit help spec unless an option named "help" was declared. -/
def withHelpSpecs (p : OptionParser) : List ScannerSpec :=
  if p.given_options.any (fun x => x.name == "help") then p.opts
  else p.opts ++ [helpSpec]

/-- Outcome of one parse: a returned result, a raised error (Rust
`panic!`), or a process termination (Rust `process::exit`). -/
inductive ParseResult where
  | ok : Options → ParseResult
  | panicked : String → ParseResult
  | exited : Nat → ParseResult
deriving DecidableEq

/-- The body of the per-declaration resolution loop of `parse_with_args`
(the code inside `for o in &self.given_options`), acting on the
accumulated `Options`. -/
def resolveOne (matched : Matches) (o : OptionDef) (options : Options) :
    Except String Options :=
  if matched.opt_present o.name then
    if o.multiple then
      if o.action.isSome then
        .error (o.name ++ " must not be a flag option.")
      else
        let opt_values := matched.opt_strs o.name
        if opt_values.length > 0 then
          .ok (options.insert o.name opt_values)
        else if o.required then
          .error (o.name ++ " is required option.")
        else
          .error (o.name ++ " must have a value, but only key like --" ++ o.name)
    else
      match matched.opt_str o.name with
      | some v => .ok (options.insert o.name [v])
      | none =>
        match o.action with
        | some OptAction.StoreTrue => .ok (options.insert o.name ["true"])
        | some OptAction.StoreFalse => .ok (options.insert o.name ["false"])
        | none => .error (o.name ++ " must have a value, but only key like --" ++ o.name)
  else
    match o.default with
    | some v => .ok (options.insert o.name [v])
    | none => .ok options

/-- The per-declaration resolution loop of `parse_with_args`; the first
raised error aborts the loop, as a Rust panic does. -/
def resolveOptions (matched : Matches) :
    List OptionDef → Options → Except String Options
  | [], options => .ok options
  | o :: rest, options =>
    match resolveOne matched o options with
    | .ok options' => resolveOptions matched rest options'
    | .error e => .error e

/-- The `Options` value as initialised by `parse_with_args` before the
resolution loop: fresh, with the defined names registered. -/
def initOptions (given_options : List OptionDef) : Options :=
  Options.new.set_defined_names (given_options.map (fun x => x.name))

/-- The check `args[1..].iter().any(|x| x == "--help" || x == "-h")`. -/
def hasHelpArg (args : List String) : Bool :=
  (args.drop 1).any (fun x => x == "--help" || x == "-h")

/-- Rust `OptionParser::parse_with_args`, with the external scanner and
usage renderer passed as capabilities.  Returns the printed lines and the
outcome.  (On an empty argument vector the Rust code would panic on
indexing; every claim concerns argument lists starting with the program
name, so `args[0]` is modelled as `args.headD ""`.) -/
def parse_with_args (p : OptionParser) (args : List String)
    (scan : List ScannerSpec → List String → Except String Matches)
    (usageR : List ScannerSpec → String → String) :
    List String × ParseResult :=
  match scan (withHelpSpecs p) (args.drop 1) with
  | .error f =>
    let printed := [usageR (withHelpSpecs p) (briefOf p.given_options (args.headD ""))]
    if hasHelpArg args then (printed, ParseResult.exited 0)
    else (printed, ParseResult.panicked f)
  | .ok matched =>
    if matched.opt_present "h" then
      ([usageR (withHelpSpecs p) (briefOf p.given_options (args.headD ""))],
        ParseResult.exited 0)
    else
      match resolveOptions matched p.given_options (initOptions p.given_options) with
      | .ok options => ([], ParseResult.ok options)
      | .error e => ([], ParseResult.panicked e)

/-- The value contributed by one declaration under a given scanner report,
independent of the accumulator: `ok (some vs)` when the loop body stores
`vs` under the option's name, `ok none` when it stores nothing, and
`error e` when it raises. -/
def resolvedEntry (matched : Matches) (o : OptionDef) :
    Except String (Option (List String)) :=
  if matched.opt_present o.name then
    if o.multiple then
      if o.action.isSome then
        .error (o.name ++ " must not be a flag option.")
      else
        let opt_values := matched.opt_strs o.name
        if opt_values.length > 0 then
          .ok (some opt_values)
        else if o.required then
          .error (o.name ++ " is required option.")
        else
          .error (o.name ++ " must have a value, but only key like --" ++ o.name)
    else
      match matched.opt_str o.name with
      | some v => .ok (some [v])
      | none =>
        match o.action with
        | some OptAction.StoreTrue => .ok (some ["true"])
        | some OptAction.StoreFalse => .ok (some ["false"])
        | none => .error (o.name ++ " must have a value, but only key like --" ++ o.name)
  else
    .ok (o.default.map (fun v => [v]))

/-! Concrete instances used to exercise the theorems below. -/

/-- A trivial usage renderer: returns the synthesized brief unchanged. -/
def usageId : List ScannerSpec → String → String := fun _ brief => brief

/-- A scanner report with every option present and nothing captured. -/
def allPresentMatched : Matches :=
  { opt_present := fun _ => true
    opt_str := fun _ => none
    opt_strs := fun _ => [] }

/-- A scanner report with every option absent. -/
def allAbsentMatched : Matches :=
  { opt_present := fun _ => false
    opt_str := fun _ => none
    opt_strs := fun _ => [] }

def c1Parser : OptionParser := OptionParser.new

def c1ScanOk : List ScannerSpec → List String → Except String Matches :=
  fun _ _ => .ok allPresentMatched

def c1ScanErr : List ScannerSpec → List String → Except String Matches :=
  fun _ _ => .error "bad option"

def c2OptA : OptionDef := { OptionDef.new with name := "alpha", default := some "42" }

def c2OptB : OptionDef := { OptionDef.new with name := "beta" }

def c2Decls : List OptionDef := [c2OptA, c2OptB]

def c3Matched : Matches :=
  { opt_present := fun s => s == "verbose"
    opt_str := fun _ => none
    opt_strs := fun _ => [] }

def c3Opt : OptionDef :=
  { OptionDef.new with
    name := "verbose"
    action := some OptAction.StoreTrue
    uppercase_name := "VERBOSE" }

def c4Matched : Matches :=
  { opt_present := fun s => s == "tag"
    opt_str := fun _ => none
    opt_strs := fun s => if s == "tag" then ["a", "b"] else [] }

def c4Opt : OptionDef :=
  { OptionDef.new with name := "tag", multiple := true, uppercase_name := "TAG" }

def c5Scan : List ScannerSpec → List String → Except String Matches :=
  fun _ _ => .error "Unrecognized option"

def c5Parser : OptionParser :=
  { opts := []
    given_options := [{ OptionDef.new with name := "input", uppercase_name := "INPUT" }] }

/-- The report the getopts scanner produces for `c5Parser` on the raw
arguments `["--input", "-h"]`: since `--input` is registered
value-required, the scanner consumes `-h` as its value, succeeds, and
does not report the help option present. -/
def c5Matched : Matches :=
  { opt_present := fun s => s == "input"
    opt_str := fun s => if s == "input" then some "-h" else none
    opt_strs := fun _ => [] }

def c5ScanOk : List ScannerSpec → List String → Except String Matches :=
  fun _ _ => .ok c5Matched

def c6Opt : OptionDef :=
  { OptionDef.new with
    name := "tag"
    multiple := true
    action := some OptAction.StoreTrue }

def c7FlagOpt : OptionDef :=
  { OptionDef.new with
    name := "tag"
    required := true
    multiple := true
    action := some OptAction.StoreTrue }

def c7ReqOpt : OptionDef :=
  { OptionDef.new with name := "tag", required := true, multiple := true }

def c9Parser : OptionParser :=
  { opts := []
    given_options := [{ OptionDef.new with name := "input", uppercase_name := "INPUT" }] }

def c9Matched : Matches :=
  { opt_present := fun s => s == "input"
    opt_str := fun s => if s == "input" then some "INPUT_VALUE" else none
    opt_strs := fun _ => [] }

def c9Scan : List ScannerSpec → List String → Except String Matches :=
  fun _ _ => .ok c9Matched

def c10InputOpt : OptionDef :=
  { OptionDef.new with name := "input", uppercase_name := "INPUT" }

def c10ModeOpt : OptionDef :=
  { OptionDef.new with name := "mode", uppercase_name := "MODE" }

def c10Parser : OptionParser :=
  { opts := [], given_options := [c10InputOpt, c10ModeOpt] }

def c10Matched : Matches :=
  { opt_present := fun s => s == "input"
    opt_str := fun s => if s == "input" then some "V" else none
    opt_strs := fun _ => [] }

/-! Basic lemmas about the association-list map. -/

theorem mapLookup_assocInsert_self (l : List (String × List String)) (k : String)
    (v : List String) : mapLookup (assocInsert l k v) k = some v := by
  induction l with
  | nil => simp [assocInsert, mapLookup]
  | cons e rest ih =>
    by_cases h : e.1 = k
    · simp [assocInsert, mapLookup, h]
    · simp [assocInsert, mapLookup, h, ih]

theorem mapLookup_assocInsert_ne (l : List (String × List String)) (k : String)
    (v : List String) (k' : String) (hne : k ≠ k') :
    mapLookup (assocInsert l k v) k' = mapLookup l k' := by
  induction l with
  | nil => simp [assocInsert, mapLookup, hne]
  | cons e rest ih =>
    by_cases h : e.1 = k
    · simp [assocInsert, mapLookup, h, hne]
    · simp [assocInsert, mapLookup, h, ih]

theorem mem_assocInsert (l : List (String × List String)) (k : String)
    (v : List String) (e : String × List String) (h : e ∈ assocInsert l k v) :
    e ∈ l ∨ e = (k, v) := by
  induction l with
  | nil => simp [assocInsert] at h; exact Or.inr h
  | cons e0 rest ih =>
    by_cases h0 : e0.1 = k
    · simp only [assocInsert, h0, if_pos] at h
      rcases List.mem_cons.mp h with h1 | h1
      · exact Or.inr h1
      · exact Or.inl (List.mem_cons_of_mem _ h1)
    · simp only [assocInsert, h0, if_neg, not_false_iff] at h
      rcases List.mem_cons.mp h with h1 | h1
      · exact Or.inl (h1 ▸ List.mem_cons_self _ _)
      · rcases ih h1 with h2 | h2
        · exact Or.inl (List.mem_cons_of_mem _ h2)
        · exact Or.inr h2

theorem Options.get_insert_self (o : Options) (k : String) (v : List String) :
    (o.insert k v).get k = some v := by
  simp [Options.insert, Options.get, mapContains, mapLookup_assocInsert_self]

theorem Options.get_insert_ne (o : Options) (k : String) (v : List String)
    (k' : String) (hne : k ≠ k') : (o.insert k v).get k' = o.get k' := by
  simp [Options.insert, Options.get, mapContains, mapLookup_assocInsert_ne _ _ _ _ hne]

theorem Options.defined_insert (o : Options) (k : String) (v : List String) :
    (o.insert k v).defined_names = o.defined_names := rfl

/-! The loop body `resolveOne` agrees with the accumulator-independent
`resolvedEntry`. -/

theorem resolveOne_entry (matched : Matches) (o : OptionDef) (acc : Options) :
    resolveOne matched o acc = (resolvedEntry matched o).map
      (fun ov => match ov with
        | some v => acc.insert o.name v
        | none => acc) := by
  unfold resolveOne resolvedEntry
  cases hp : matched.opt_present o.name with
  | false =>
    simp only [Bool.false_eq_true, if_false]
    cases o.default <;> simp [Except.map]
  | true =>
    simp only [if_true]
    cases hm : o.multiple with
    | true =>
      simp only [if_true]
      cases ha : o.action.isSome with
      | true => simp [Except.map]
      | false =>
        simp only [Bool.false_eq_true, if_false]
        by_cases hl : (matched.opt_strs o.name).length > 0
        · simp [hl, Except.map]
        · simp only [hl, if_false]
          cases hr : o.required <;> simp [Except.map]
    | false =>
      simp only [Bool.false_eq_true, if_false]
      cases hs : matched.opt_str o.name with
      | some v => simp [Except.map]
      | none =>
        simp only []
        cases ha : o.action with
        | none => simp [Except.map]
        | some a => cases a <;> simp [Except.map]

theorem resolveOne_ok_of_entry (matched : Matches) (o : OptionDef) (acc : Options)
    {ov : Option (List String)} (h : resolvedEntry matched o = .ok ov) :
    resolveOne matched o acc = .ok (ov.elim acc (fun v => acc.insert o.name v)) := by
  cases ov with
  | some v => rw [resolveOne_entry, h]; rfl
  | none => rw [resolveOne_entry, h]; rfl

theorem resolveOne_error_of_entry (matched : Matches) (o : OptionDef) (acc : Options)
    {e : String} (h : resolvedEntry matched o = .error e) :
    resolveOne matched o acc = .error e := by
  rw [resolveOne_entry, h]
  rfl

theorem resolveOne_cases (matched : Matches) (o : OptionDef) (acc acc' : Options)
    (h : resolveOne matched o acc = .ok acc') :
    (∃ v, resolvedEntry matched o = .ok (some v) ∧ acc' = acc.insert o.name v)
    ∨ (resolvedEntry matched o = .ok none ∧ acc' = acc) := by
  rw [resolveOne_entry] at h
  cases he : resolvedEntry matched o with
  | error e => rw [he] at h; exact absurd h (by simp [Except.map])
  | ok ov =>
    rw [he] at h
    cases ov with
    | some v =>
      simp only [Except.map] at h
      exact Or.inl ⟨v, rfl, (Except.ok.injEq _ _ ▸ h).symm⟩
    | none =>
      simp only [Except.map] at h
      exact Or.inr ⟨rfl, (Except.ok.injEq _ _ ▸ h).symm⟩

/-! Structural lemmas about the resolution loop. -/

theorem resolveOptions_cons (matched : Matches) (o : OptionDef)
    (rest : List OptionDef) (acc res : Options)
    (h : resolveOptions matched (o :: rest) acc = .ok res) :
    ∃ acc', resolveOne matched o acc = .ok acc'
      ∧ resolveOptions matched rest acc' = .ok res := by
  unfold resolveOptions at h
  cases h1 : resolveOne matched o acc with
  | error e =>
    rw [h1] at h
    exact absurd h (by simp)
  | ok acc' =>
    rw [h1] at h
    exact ⟨acc', rfl, h⟩

theorem resolveOne_defined (matched : Matches) (o : OptionDef) (acc acc' : Options)
    (h : resolveOne matched o acc = .ok acc') :
    acc'.defined_names = acc.defined_names := by
  rcases resolveOne_cases matched o acc acc' h with ⟨v, _, rfl⟩ | ⟨_, rfl⟩ <;> rfl

theorem resolveOptions_defined (matched : Matches) (decls : List OptionDef) :
    ∀ (acc res : Options), resolveOptions matched decls acc = .ok res →
      res.defined_names = acc.defined_names := by
  induction decls with
  | nil =>
    intro acc res h
    unfold resolveOptions at h
    cases h
    rfl
  | cons o rest ih =>
    intro acc res h
    rcases resolveOptions_cons matched o rest acc res h with ⟨acc', h1, h2⟩
    rw [ih acc' res h2, resolveOne_defined matched o acc acc' h1]

theorem resolveOne_get_ne (matched : Matches) (o : OptionDef) (acc acc' : Options)
    (k : String) (hne : o.name ≠ k) (h : resolveOne matched o acc = .ok acc') :
    acc'.get k = acc.get k := by
  rcases resolveOne_cases matched o acc acc' h with ⟨v, _, rfl⟩ | ⟨_, rfl⟩
  · exact Options.get_insert_ne acc o.name v k hne
  · rfl

theorem resolveOptions_get_frame (matched : Matches) (decls : List OptionDef) :
    ∀ (acc res : Options) (k : String),
      k ∉ decls.map (fun x => x.name) →
      resolveOptions matched decls acc = .ok res →
      res.get k = acc.get k := by
  induction decls with
  | nil =>
    intro acc res k _ h
    unfold resolveOptions at h
    cases h
    rfl
  | cons o rest ih =>
    intro acc res k hk h
    rcases resolveOptions_cons matched o rest acc res h with ⟨acc', h1, h2⟩
    have hk1 : o.name ≠ k := fun hc => hk (by simp [← hc])
    have hk2 : k ∉ rest.map (fun x => x.name) := fun hc => hk (by simp [hc])
    rw [ih acc' res k hk2 h2, resolveOne_get_ne matched o acc acc' k hk1 h1]

/-- The central lemma: under distinct declared names, the value a
successful resolution run stores under a declaration's name is exactly
the declaration's own contribution (or the accumulator's prior value when
it contributes nothing). -/
theorem resolveOptions_mem_get (matched : Matches) (decls : List OptionDef) :
    ∀ (acc res : Options) (o : OptionDef) (ov : Option (List String)),
      (decls.map (fun x => x.name)).Nodup → o ∈ decls →
      resolveOptions matched decls acc = .ok res →
      resolvedEntry matched o = .ok ov →
      res.get o.name = ov.elim (acc.get o.name) some := by
  induction decls with
  | nil =>
    intro _ _ _ _ _ hmem
    exact absurd hmem (List.not_mem_nil _)
  | cons hd rest ih =>
    intro acc res o ov hnd hmem hres hov
    rcases resolveOptions_cons matched hd rest acc res hres with ⟨acc', h1, h2⟩
    have hnd' : hd.name ∉ rest.map (fun x => x.name)
        ∧ (rest.map (fun x => x.name)).Nodup := by
      rw [List.map_cons, List.nodup_cons] at hnd
      exact hnd
    rcases List.mem_cons.mp hmem with heq | hmem'
    · subst heq
      have hframe := resolveOptions_get_frame matched rest acc' res o.name hnd'.1 h2
      have h1' := resolveOne_ok_of_entry matched o acc hov
      rw [h1'] at h1
      have hacc' : acc' = ov.elim acc (fun v => acc.insert o.name v) :=
        (Except.ok.injEq _ _ ▸ h1).symm
      subst hacc'
      cases ov with
      | some v => simpa [hframe] using Options.get_insert_self acc o.name v
      | none => simpa using hframe
    · have hne : hd.name ≠ o.name := by
        intro hc
        exact hnd'.1 (hc ▸ List.mem_map.mpr ⟨o, hmem', rfl⟩)
      have := ih acc' res o ov hnd'.2 hmem' h2 hov
      rw [this]
      cases ov with
      | some v => rfl
      | none => simpa using resolveOne_get_ne matched hd acc acc' o.name hne h1

/-! Non-empty-values invariant machinery. -/

/-- Every stored value list in the parsed map is non-empty. -/
def goodParsed (l : List (String × List String)) : Prop :=
  ∀ e ∈ l, e.2 ≠ ([] : List String)

theorem goodParsed_assocInsert (l : List (String × List String)) (k : String)
    (v : List String) (hl : goodParsed l) (hv : v ≠ []) :
    goodParsed (assocInsert l k v) := by
  intro e he
  rcases mem_assocInsert l k v e he with h | h
  · exact hl e h
  · rw [h]
    exact hv

theorem resolvedEntry_some_ne_nil (matched : Matches) (o : OptionDef)
    (v : List String) (h : resolvedEntry matched o = .ok (some v)) : v ≠ [] := by
  unfold resolvedEntry at h
  by_cases hp : matched.opt_present o.name
  · simp only [hp, if_true] at h
    by_cases hm : o.multiple
    · simp only [hm, if_true] at h
      by_cases ha : o.action.isSome
      · simp [ha] at h
      · simp only [ha, Bool.false_eq_true, if_false] at h
        by_cases hl : (matched.opt_strs o.name).length > 0
        · simp only [hl, if_pos] at h
          cases h
          exact List.length_pos.mp hl
        · simp only [hl, if_neg, not_false_iff] at h
          by_cases hr : o.required <;> simp [hr] at h
    · simp only [hm, Bool.false_eq_true, if_false] at h
      cases hs : matched.opt_str o.name with
      | some w =>
        rw [hs] at h
        cases h
        simp
      | none =>
        rw [hs] at h
        cases ha : o.action with
        | none => rw [ha] at h; cases h
        | some a =>
          rw [ha] at h
          cases a <;> (cases h; simp)
  · simp only [hp, if_neg, not_false_iff] at h
    cases hd : o.default with
    | none => rw [hd] at h; cases h
    | some d =>
      rw [hd] at h
      cases h
      simp

theorem resolveOne_good (matched : Matches) (o : OptionDef) (acc acc' : Options)
    (h : resolveOne matched o acc = .ok acc') (hg : goodParsed acc.parsed_options) :
    goodParsed acc'.parsed_options := by
  rcases resolveOne_cases matched o acc acc' h with ⟨v, hv, rfl⟩ | ⟨_, rfl⟩
  · exact goodParsed_assocInsert acc.parsed_options o.name v hg
      (resolvedEntry_some_ne_nil matched o v hv)
  · exact hg

theorem resolveOptions_good (matched : Matches) (decls : List OptionDef) :
    ∀ (acc res : Options), resolveOptions matched decls acc = .ok res →
      goodParsed acc.parsed_options → goodParsed res.parsed_options := by
  induction decls with
  | nil =>
    intro acc res h hg
    unfold resolveOptions at h
    cases h
    exact hg
  | cons o rest ih =>
    intro acc res h hg
    rcases resolveOptions_cons matched o rest acc res h with ⟨acc', h1, h2⟩
    exact ih acc' res h2 (resolveOne_good matched o acc acc' h1 hg)

theorem contains_of_mem_names {l : List String} {a : String} (h : a ∈ l) :
    l.contains a = true := by
  induction l with
  | nil => cases h
  | cons hd tl ih =>
    rcases List.mem_cons.mp h with rfl | h'
    · simp
    · simp only [List.contains_eq_any_beq, List.any_cons, Bool.or_eq_true]
      right
      rw [← List.contains_eq_any_beq]
      exact ih h'

theorem initOptions_get (decls : List OptionDef) (k : String) :
    (initOptions decls).get k = none := rfl

theorem initOptions_defined (decls : List OptionDef) :
    (initOptions decls).defined_names = decls.map (fun x => x.name) := by
  simp [initOptions, Options.new, Options.set_defined_names]

/-! Claim theorems. -/

/-- Claim C2: an option the scanner reports absent resolves, for any
combination of its other attributes, without error: when a default is
declared the result maps the name to exactly the one-element list holding
the default, and with no default the result holds no value for the name. -/
theorem C2_absent_option_resolution :
    (∀ (matched : Matches) (o : OptionDef),
      matched.opt_present o.name = false →
      resolvedEntry matched o = .ok (o.default.map (fun v => [v])))
    ∧ (∀ (matched : Matches) (decls : List OptionDef) (res : Options) (o : OptionDef),
      (decls.map (fun x => x.name)).Nodup → o ∈ decls →
      matched.opt_present o.name = false →
      resolveOptions matched decls (initOptions decls) = .ok res →
      res.get o.name = o.default.map (fun v => [v])) := by
  have part1 : ∀ (matched : Matches) (o : OptionDef),
      matched.opt_present o.name = false →
      resolvedEntry matched o = .ok (o.default.map (fun v => [v])) := by
    intro matched o hp
    unfold resolvedEntry
    simp [hp]
  refine ⟨part1, ?_⟩
  intro matched decls res o hnd hmem hp hres
  have h2 := resolveOptions_mem_get matched decls (initOptions decls) res o
    (o.default.map (fun v => [v])) hnd hmem hres (part1 matched o hp)
  cases hd : o.default with
  | none => simpa [hd, initOptions_get] using h2
  | some d => simpa [hd] using h2

/-- Claim C2 witness: a registry with a defaulted option and a plain
option, both absent from input, resolves the defaulted one to its default. -/
theorem C2_witness :
    ({ defined_names := ["alpha", "beta"],
       parsed_options := [("alpha", ["42"])] } : Options).get "alpha" = some ["42"] := by
  have h := C2_absent_option_resolution.2 allAbsentMatched c2Decls
    { defined_names := ["alpha", "beta"], parsed_options := [("alpha", ["42"])] }
    c2OptA (by decide) (List.mem_cons_self _ _) rfl rfl
  exact h

/-- Claim C3: a present single-valued option with no captured value
resolves to the one-element list "true" under StoreTrue, "false" under
StoreFalse, and raises fatally when it has no boolean action; and
add_option registers a boolean-action option with the scanner with arity
No (it takes no value token). -/
theorem C3_boolean_flag_resolution :
    (∀ (matched : Matches) (o : OptionDef) (acc : Options),
      matched.opt_present o.name = true → o.multiple = false →
      matched.opt_str o.name = none →
      resolveOne matched o acc =
        (match o.action with
         | some OptAction.StoreTrue => .ok (acc.insert o.name ["true"])
         | some OptAction.StoreFalse => .ok (acc.insert o.name ["false"])
         | none => .error (o.name ++ " must have a value, but only key like --" ++ o.name)))
    ∧ (∀ (matched : Matches) (decls : List OptionDef) (res : Options)
        (o : OptionDef) (a : OptAction),
      (decls.map (fun x => x.name)).Nodup → o ∈ decls →
      matched.opt_present o.name = true → o.multiple = false →
      matched.opt_str o.name = none → o.action = some a →
      resolveOptions matched decls (initOptions decls) = .ok res →
      res.get o.name = some [(match a with
        | OptAction.StoreTrue => "true"
        | OptAction.StoreFalse => "false")])
    ∧ (∀ (p : OptionParser) (name short_name : String)
        (required multiple : Option Bool) (default : Option String)
        (a : OptAction) (help : Option String),
      ∃ spec : ScannerSpec,
        (p.add_option name short_name required multiple default (some a) help).opts
          = p.opts ++ [spec] ∧ spec.hasarg = HasArg.No) := by
  refine ⟨?_, ?_, ?_⟩
  · intro matched o acc hp hm hs
    unfold resolveOne
    simp only [hp, hm, hs, if_true, Bool.false_eq_true, if_false]
  · intro matched decls res o a hnd hmem hp hm hs ha hres
    cases a with
    | StoreTrue =>
      have hov : resolvedEntry matched o = .ok (some ["true"]) := by
        unfold resolvedEntry
        simp [hp, hm, hs, ha]
      have h2 := resolveOptions_mem_get matched decls (initOptions decls) res o _
        hnd hmem hres hov
      simpa using h2
    | StoreFalse =>
      have hov : resolvedEntry matched o = .ok (some ["false"]) := by
        unfold resolvedEntry
        simp [hp, hm, hs, ha]
      have h2 := resolveOptions_mem_get matched decls (initOptions decls) res o _
        hnd hmem hres hov
      simpa using h2
  · intro p name short_name required multiple default a help
    exact ⟨_, rfl, rfl⟩

/-- Claim C3 witness: a StoreTrue flag given as a bare flag stores the
literal string "true". -/
theorem C3_witness :
    resolveOne c3Matched c3Opt Options.new
      = .ok { defined_names := [], parsed_options := [("verbose", ["true"])] } := by
  have h := C3_boolean_flag_resolution.1 c3Matched c3Opt Options.new rfl rfl rfl
  exact h

/-- Claim C4: a multiple-valued, non-boolean option the scanner reports
present with a non-empty captured value list resolves to exactly that
list, in scanner (input) order. -/
theorem C4_multiple_values_in_order (matched : Matches) (decls : List OptionDef)
    (res : Options) (o : OptionDef)
    (hnd : (decls.map (fun x => x.name)).Nodup) (hmem : o ∈ decls)
    (hmul : o.multiple = true) (hact : o.action = none)
    (hp : matched.opt_present o.name = true)
    (hne : matched.opt_strs o.name ≠ [])
    (hres : resolveOptions matched decls (initOptions decls) = .ok res) :
    res.get o.name = some (matched.opt_strs o.name) := by
  have hov : resolvedEntry matched o = .ok (some (matched.opt_strs o.name)) := by
    unfold resolvedEntry
    simp [hp, hmul, hact, List.length_pos.mpr hne]
  have h2 := resolveOptions_mem_get matched decls (initOptions decls) res o _
    hnd hmem hres hov
  simpa using h2

/-- Claim C4 witness: a multiple option given the values "a" then "b"
resolves to the ordered list containing "a" then "b". -/
theorem C4_witness :
    ({ defined_names := ["tag"],
       parsed_options := [("tag", ["a", "b"])] } : Options).get "tag" = some ["a", "b"] := by
  have h := C4_multiple_values_in_order c4Matched [c4Opt]
    { defined_names := ["tag"], parsed_options := [("tag", ["a", "b"])] } c4Opt
    (by decide) (List.mem_cons_self _ _) rfl rfl rfl (by decide) rfl
  exact h

/-- Claim C6: a declaration that is both multiple and boolean-action
raises fatally with the "must not be a flag option" message whenever the
scanner reports it present; add_option itself accepts such a conflicting
declaration without error, simply appending it to the registry. -/
theorem C6_conflicting_declaration :
    (∀ (matched : Matches) (o : OptionDef) (acc : Options),
      o.multiple = true → o.action.isSome = true →
      matched.opt_present o.name = true →
      resolveOne matched o acc = .error (o.name ++ " must not be a flag option."))
    ∧ (∀ (p : OptionParser) (name short_name : String) (required : Option Bool)
        (default : Option String) (a : OptAction) (help : Option String),
      ∃ od : OptionDef,
        (p.add_option name short_name required (some true) default (some a) help).given_options
          = p.given_options ++ [od]
        ∧ od.multiple = true ∧ od.action = some a) := by
  constructor
  · intro matched o acc hmul ha hp
    unfold resolveOne
    simp [hp, hmul, ha]
  · intro p name short_name required default a help
    exact ⟨_, rfl, rfl, rfl⟩

/-- Claim C6 witness: a present multiple StoreTrue option raises the
flag-option conflict error. -/
theorem C6_witness :
    resolveOne allPresentMatched c6Opt Options.new
      = .error "tag must not be a flag option." := by
  have h := C6_conflicting_declaration.1 allPresentMatched c6Opt Options.new rfl rfl rfl
  exact h

/-- Claim C7 counterexample: a required, multiple option that also carries
a boolean action, reported present with zero captured values, does fail
fatally, but with the flag-conflict message rather than the "required
option" message the claim demands. -/
theorem C7_counterexample :
    resolveOne allPresentMatched c7FlagOpt Options.new
      = .error "tag must not be a flag option."
    ∧ ("tag must not be a flag option." ≠ "tag is required option.") := by
  exact ⟨rfl, by decide⟩

/-- Claim C7 (amended): a multiple option reported present with zero
captured values always raises fatally; when it has no boolean action the
message is the "required option" one if the declaration is required and
the generic malformed-option one otherwise. -/
theorem C7_multiple_zero_values :
    (∀ (matched : Matches) (o : OptionDef) (acc : Options),
      o.multiple = true → matched.opt_present o.name = true →
      matched.opt_strs o.name = [] →
      ∃ e, resolveOne matched o acc = .error e)
    ∧ (∀ (matched : Matches) (o : OptionDef) (acc : Options),
      o.multiple = true → o.action = none →
      matched.opt_present o.name = true → matched.opt_strs o.name = [] →
      resolveOne matched o acc = .error
        (if o.required then o.name ++ " is required option."
         else o.name ++ " must have a value, but only key like --" ++ o.name)) := by
  constructor
  · intro matched o acc hmul hp hvs
    by_cases ha : o.action.isSome = true
    · exact ⟨o.name ++ " must not be a flag option.", by
        unfold resolveOne
        simp [hp, hmul, ha]⟩
    · have ha' : o.action.isSome = false := by simpa using ha
      by_cases hr : o.required = true
      · exact ⟨o.name ++ " is required option.", by
          unfold resolveOne
          simp [hp, hmul, ha', hvs, hr]⟩
      · have hr' : o.required = false := by simpa using hr
        exact ⟨o.name ++ " must have a value, but only key like --" ++ o.name, by
          unfold resolveOne
          simp [hp, hmul, ha', hvs, hr']⟩
  · intro matched o acc hmul hact hp hvs
    cases hr : o.required with
    | true =>
      unfold resolveOne
      simp [hp, hmul, hact, hvs, hr]
    | false =>
      unfold resolveOne
      simp [hp, hmul, hact, hvs, hr]

/-- Claim C7 witness: a required multiple option (no boolean action),
present with no captured values, raises the "required option" error. -/
theorem C7_witness :
    resolveOne allPresentMatched c7ReqOpt Options.new
      = .error "tag is required option." := by
  have h := C7_multiple_zero_values.2 allPresentMatched c7ReqOpt Options.new
    rfl rfl rfl rfl
  exact h

/-- Claim C8: add_option forwards to the scanner a spec whose arity is No
exactly when a boolean action is given and Yes (value required) otherwise,
and whose occurrence is Req when required, else Multi when multiple, else
Optional, with required taking precedence over multiple. -/
theorem C8_forwarded_spec (p : OptionParser) (name short_name : String)
    (required multiple : Option Bool) (default : Option String)
    (action : Option OptAction) (help : Option String) :
    ∃ spec : ScannerSpec,
      (p.add_option name short_name required multiple default action help).opts
        = p.opts ++ [spec]
      ∧ spec.hasarg = (if action.isSome then HasArg.No else HasArg.Yes)
      ∧ spec.occur = (if required.getD false then Occur.Req
          else if multiple.getD false then Occur.Multi else Occur.Optional)
      ∧ spec.name = name ∧ spec.short_name = short_name := by
  exact ⟨_, rfl, rfl, rfl, rfl, rfl⟩

/-- Claim C9: invariant of every successfully returned parse result —
each name stored in the parsed-value map carries a non-empty list of
strings; no resolution path stores an empty value list. -/
theorem C9_nonempty_values (p : OptionParser) (args : List String)
    (scan : List ScannerSpec → List String → Except String Matches)
    (usageR : List ScannerSpec → String → String) (out : List String) (res : Options)
    (h : parse_with_args p args scan usageR = (out, ParseResult.ok res)) :
    ∀ e ∈ res.parsed_options, e.2 ≠ ([] : List String) := by
  unfold parse_with_args at h
  cases hscan : scan (withHelpSpecs p) (args.drop 1) with
  | error f =>
    rw [hscan] at h
    by_cases hh : hasHelpArg args = true
    · simp [hh] at h
    · simp [hh] at h
  | ok matched =>
    rw [hscan] at h
    by_cases hp : matched.opt_present "h" = true
    · simp [hp] at h
    · simp only [hp, Bool.false_eq_true, if_false] at h
      cases hres : resolveOptions matched p.given_options (initOptions p.given_options) with
      | error e =>
        rw [hres] at h
        simp at h
      | ok res' =>
        rw [hres] at h
        simp only [Prod.mk.injEq, ParseResult.ok.injEq] at h
        obtain ⟨-, h2⟩ := h
        subst h2
        exact resolveOptions_good matched p.given_options (initOptions p.given_options)
          res' hres (fun e he => absurd he (List.not_mem_nil e))

/-- Claim C9 witness: a concrete successful parse stores the non-empty
list containing the given value. -/
theorem C9_witness : (("input", ["INPUT_VALUE"]) : String × List String).2 ≠ [] := by
  have h := C9_nonempty_values c9Parser ["prog", "--input", "INPUT_VALUE"] c9Scan usageId
    [] { defined_names := ["input"], parsed_options := [("input", ["INPUT_VALUE"])] } rfl
  exact h ("input", ["INPUT_VALUE"]) (List.mem_cons_self _ _)

/-- Claim C10: after a successful parse, contains_key answers true for
every declared name, including an absent option with no default, while
get returns none for such a name; contains_key is exactly the disjunction
of having a parsed value and appearing among the defined names. -/
theorem C10_contains_vs_get (p : OptionParser) (args : List String)
    (matched : Matches) (usageR : List ScannerSpec → String → String)
    (out : List String) (res : Options)
    (h : parse_with_args p args (fun _ _ => .ok matched) usageR
      = (out, ParseResult.ok res)) :
    (∀ o ∈ p.given_options, res.contains_key o.name = true)
    ∧ (∀ k, res.contains_key k
        = (mapContains res.parsed_options k || res.defined_names.contains k))
    ∧ (∀ o ∈ p.given_options,
        (p.given_options.map (fun x => x.name)).Nodup →
        matched.opt_present o.name = false → o.default = none →
        res.get o.name = none) := by
  unfold parse_with_args at h
  by_cases hp : matched.opt_present "h" = true
  · simp [hp] at h
  · simp only [hp, Bool.false_eq_true, if_false] at h
    cases hres : resolveOptions matched p.given_options (initOptions p.given_options) with
    | error e =>
      rw [hres] at h
      simp at h
    | ok res' =>
      rw [hres] at h
      simp only [Prod.mk.injEq, ParseResult.ok.injEq] at h
      obtain ⟨-, h2⟩ := h
      subst h2
      have hdef : res'.defined_names = p.given_options.map (fun x => x.name) := by
        rw [resolveOptions_defined matched p.given_options (initOptions p.given_options)
          res' hres]
        exact initOptions_defined p.given_options
      refine ⟨?_, ?_, ?_⟩
      · intro o hmem
        unfold Options.contains_key
        by_cases hc : mapContains res'.parsed_options o.name = true
        · simp [hc]
        · have hm : o.name ∈ res'.defined_names := by
            rw [hdef]
            exact List.mem_map.mpr ⟨o, hmem, rfl⟩
          rw [if_neg hc, if_pos (contains_of_mem_names hm)]
      · intro k
        unfold Options.contains_key
        cases hc : mapContains res'.parsed_options k <;>
          cases hd : res'.defined_names.contains k <;> simp [hc, hd]
      · intro o hmem hnd hpres hdflt
        have hov : resolvedEntry matched o = .ok none := by
          unfold resolvedEntry
          simp [hpres, hdflt]
        have h2 := resolveOptions_mem_get matched p.given_options
          (initOptions p.given_options) res' o none hnd hmem hres hov
        simpa [initOptions_get] using h2

/-- Claim C10 witness: with "input" given and "mode" declared but absent
and defaultless, the result still answers contains_key "mode" = true
while get "mode" returns none. -/
theorem C10_witness :
    ({ defined_names := ["input", "mode"],
       parsed_options := [("input", ["V"])] } : Options).contains_key "mode" = true
    ∧ ({ defined_names := ["input", "mode"],
         parsed_options := [("input", ["V"])] } : Options).get "mode" = none := by
  have h := C10_contains_vs_get c10Parser ["prog", "--input", "V"] c10Matched usageId
    [] { defined_names := ["input", "mode"], parsed_options := [("input", ["V"])] } rfl
  refine ⟨?_, ?_⟩
  · exact h.1 c10ModeOpt (List.mem_cons_of_mem _ (List.mem_cons_self _ _))
  · exact h.2.2 c10ModeOpt (List.mem_cons_of_mem _ (List.mem_cons_self _ _))
      (by decide) rfl rfl

/-- Claim C1 counterexample: with "--help" among the arguments and the
scanner reporting the help option present, parse_with_args terminates the
process with exit code 0 instead of returning a result or raising an
error — contradicting the claim that it never terminates the process. -/
theorem C1_counterexample :
    (parse_with_args c1Parser ["prog", "--help"] c1ScanOk usageId).2
      = ParseResult.exited 0 := rfl

/-- Claim C1 (amended): parse_with_args surfaces every validation failure
and every scanner error without help intent as a raised error; the only
process terminations it performs are help exits, with code 0, occurring
exactly when the scanner errored while "--help" or "-h" appears after the
program name, or the scanner succeeded reporting the help option present. -/
theorem C1_exit_only_on_help (p : OptionParser) (args : List String)
    (scan : List ScannerSpec → List String → Except String Matches)
    (usageR : List ScannerSpec → String → String) (out : List String) (c : Nat)
    (h : parse_with_args p args scan usageR = (out, ParseResult.exited c)) :
    c = 0 ∧
      ((∃ f, scan (withHelpSpecs p) (args.drop 1) = .error f ∧ hasHelpArg args = true)
       ∨ (∃ matched, scan (withHelpSpecs p) (args.drop 1) = .ok matched
            ∧ matched.opt_present "h" = true)) := by
  unfold parse_with_args at h
  cases hscan : scan (withHelpSpecs p) (args.drop 1) with
  | error f =>
    rw [hscan] at h
    by_cases hh : hasHelpArg args = true
    · simp only [hh, if_true, Prod.mk.injEq, ParseResult.exited.injEq] at h
      obtain ⟨-, h2⟩ := h
      exact ⟨h2.symm, Or.inl ⟨f, rfl, hh⟩⟩
    · simp [hh] at h
  | ok matched =>
    rw [hscan] at h
    by_cases hp : matched.opt_present "h" = true
    · simp only [hp, if_true, Prod.mk.injEq, ParseResult.exited.injEq] at h
      obtain ⟨-, h2⟩ := h
      exact ⟨h2.symm, Or.inr ⟨matched, rfl, hp⟩⟩
    · simp only [hp, Bool.false_eq_true, if_false] at h
      cases hres : resolveOptions matched p.given_options (initOptions p.given_options) with
      | error e =>
        rw [hres] at h
        simp at h
      | ok r =>
        rw [hres] at h
        simp at h

/-- Claim C1 witness: a scanner error while "-h" is among the arguments
yields the help exit, as the amended claim describes. -/
theorem C1_witness :
    (0 : Nat) = 0 ∧
      ((∃ f, c1ScanErr (withHelpSpecs c1Parser) ((["prog", "-h"] : List String).drop 1)
          = .error f ∧ hasHelpArg ["prog", "-h"] = true)
       ∨ (∃ matched, c1ScanErr (withHelpSpecs c1Parser) ((["prog", "-h"] : List String).drop 1)
            = .ok matched ∧ matched.opt_present "h" = true)) :=
  C1_exit_only_on_help c1Parser ["prog", "-h"] c1ScanErr usageId ["Usage: prog"] 0 rfl

/-- Claim C5 counterexample: the arguments ["prog", "--input", "-h"]
carry "-h" after the program name, yet when the scanner consumes "-h" as
the value of the value-required option --input and succeeds without
reporting help, parsing returns a normal result — nothing is printed and
the process is not terminated, refuting the claim that every such
argument list leads to a usage print and exit 0. -/
theorem C5_counterexample :
    hasHelpArg ["prog", "--input", "-h"] = true
    ∧ parse_with_args c5Parser ["prog", "--input", "-h"] c5ScanOk usageId
        = ([], ParseResult.ok
            { defined_names := ["input"], parsed_options := [("input", ["-h"])] }) := by
  exact ⟨rfl, rfl⟩

/-- Claim C5 (amended): the help exit is driven by the scanner's report,
not by the raw text alone: when the scanner reports a syntax error and
"--help" or "-h" appears after the program name, parsing prints the
synthesized usage text and exits with code 0; likewise when the scanner
succeeds and reports the help option present; and when the scanner fails
with no such help argument, parsing prints usage and then raises fatally
with the scanner's error message. -/
theorem C5_help_exit_reported (p : OptionParser) (args : List String)
    (scan : List ScannerSpec → List String → Except String Matches)
    (usageR : List ScannerSpec → String → String) :
    (∀ f, scan (withHelpSpecs p) (args.drop 1) = .error f →
      hasHelpArg args = true →
      parse_with_args p args scan usageR =
        ([usageR (withHelpSpecs p) (briefOf p.given_options (args.headD ""))],
          ParseResult.exited 0))
    ∧ (∀ matched, scan (withHelpSpecs p) (args.drop 1) = .ok matched →
        matched.opt_present "h" = true →
        parse_with_args p args scan usageR =
          ([usageR (withHelpSpecs p) (briefOf p.given_options (args.headD ""))],
            ParseResult.exited 0))
    ∧ (∀ f, scan (withHelpSpecs p) (args.drop 1) = .error f →
        hasHelpArg args = false →
        parse_with_args p args scan usageR =
          ([usageR (withHelpSpecs p) (briefOf p.given_options (args.headD ""))],
            ParseResult.panicked f)) := by
  refine ⟨?_, ?_, ?_⟩
  · intro f hscan hh
    unfold parse_with_args
    rw [hscan]
    simp [hh]
  · intro matched hscan hpres
    unfold parse_with_args
    rw [hscan]
    simp [hpres]
  · intro f hscan hh
    unfold parse_with_args
    rw [hscan]
    simp [hh]

/-- Claim C5 witness: a scanner syntax error with "--help" among the
arguments prints usage and exits 0. -/
theorem C5_witness :
    parse_with_args OptionParser.new ["prog", "--help"] c5Scan usageId
      = (["Usage: prog"], ParseResult.exited 0) :=
  (C5_help_exit_reported OptionParser.new ["prog", "--help"] c5Scan usageId).1
    "Unrecognized option" rfl rfl

end GetoptsUtil
